import Mathlib

/-!
Verification development for the List Kamba task-management PWA.

The definitions below are a shallow embedding of the repository's source:
the utility layer (assets/js/utils.js), the persistence layer
(StorageManager in assets/js/storage.js) and the service worker (sw.js).
Timestamps are modeled as integers holding epoch milliseconds; the
asynchronous effects (current time, random id generation, network fetch
outcomes) are passed as explicit parameters.
-/

namespace ListKamba

/-! Utility layer, modeled from the DateUtils / StringUtils / AngolaUtils
objects of the source. -/

/-- DateUtils.now adds one hour (Angola, UTC+1) to the raw clock:
new Date(now.getTime() + 60*60*1000). -/
def angolaNow (now : Int) : Int := now + 3600000

/-- Whitespace per the JavaScript trim semantics: ASCII whitespace plus
vertical tab, form feed, NBSP, line/paragraph separators and the BOM. -/
def isJsSpace (c : Char) : Bool :=
  c.isWhitespace || c.toNat == 160 || c.toNat == 0x0B || c.toNat == 0x0C ||
  c.toNat == 0x2028 || c.toNat == 0x2029 || c.toNat == 0xFEFF

/-- String.prototype.trim: drop leading and trailing whitespace. -/
def jsTrim (s : String) : String :=
  String.mk (((s.data.dropWhile isJsSpace).reverse.dropWhile isJsSpace).reverse)

/-- HTML serialization of one text character, as produced by
div.textContent = str; div.innerHTML in StringUtils.sanitizeHtml:
the serializer escapes ampersand, NBSP, less-than and greater-than. -/
def escapeChar (c : Char) : List Char :=
  if c = '&' then "&amp;".data
  else if c.toNat = 160 then "&nbsp;".data
  else if c = '<' then "&lt;".data
  else if c = '>' then "&gt;".data
  else [c]

/-- StringUtils.sanitizeHtml: textContent assignment followed by reading
innerHTML; on the empty string it returns the empty string. -/
def sanitizeHtml (s : String) : String :=
  String.mk ((s.data.map escapeChar).flatten)

/-- StringUtils.generateId returns a fresh random-plus-time id; the model
draws ids from an injective counter supply. -/
def generateId (n : Nat) : String := "id_" ++ toString n

/-- Math.ceil of an integer division with a positive divisor. -/
def jsCeilDiv (n d : Int) : Int := -((-n).fdiv d)

/-- String.prototype.startsWith. -/
def jsStartsWith (s pre : String) : Bool := pre.data.isPrefixOf s.data

/-- String.prototype.includes: substring containment. -/
def jsIncludes (s sub : String) : Bool :=
  s.data.tails.any (fun t => sub.data.isPrefixOf t)

/-- String.prototype.toLowerCase restricted to the Latin repertoire the
application uses (ASCII plus the Portuguese accented letters). -/
def jsToLowerChar (c : Char) : Char :=
  if c = 'Á' then 'á' else if c = 'À' then 'à' else if c = 'Â' then 'â'
  else if c = 'Ã' then 'ã' else if c = 'É' then 'é' else if c = 'Ê' then 'ê'
  else if c = 'Í' then 'í' else if c = 'Ó' then 'ó' else if c = 'Ô' then 'ô'
  else if c = 'Õ' then 'õ' else if c = 'Ú' then 'ú' else if c = 'Ü' then 'ü'
  else if c = 'Ç' then 'ç' else c.toLower

def jsToLower (s : String) : String := String.mk (s.data.map jsToLowerChar)

/-- Canonical decomposition (NFD) of one character, restricted to the
Portuguese precomposed letters the application uses; other characters
decompose to themselves. -/
def nfdChar (c : Char) : List Char :=
  if c = 'á' then ['a', Char.ofNat 0x301] else if c = 'à' then ['a', Char.ofNat 0x300]
  else if c = 'â' then ['a', Char.ofNat 0x302] else if c = 'ã' then ['a', Char.ofNat 0x303]
  else if c = 'é' then ['e', Char.ofNat 0x301] else if c = 'ê' then ['e', Char.ofNat 0x302]
  else if c = 'í' then ['i', Char.ofNat 0x301]
  else if c = 'ó' then ['o', Char.ofNat 0x301] else if c = 'ô' then ['o', Char.ofNat 0x302]
  else if c = 'õ' then ['o', Char.ofNat 0x303]
  else if c = 'ú' then ['u', Char.ofNat 0x301] else if c = 'ü' then ['u', Char.ofNat 0x308]
  else if c = 'ç' then ['c', Char.ofNat 0x327]
  else if c = 'Á' then ['A', Char.ofNat 0x301] else if c = 'À' then ['A', Char.ofNat 0x300]
  else if c = 'Â' then ['A', Char.ofNat 0x302] else if c = 'Ã' then ['A', Char.ofNat 0x303]
  else if c = 'É' then ['E', Char.ofNat 0x301] else if c = 'Ê' then ['E', Char.ofNat 0x302]
  else if c = 'Í' then ['I', Char.ofNat 0x301]
  else if c = 'Ó' then ['O', Char.ofNat 0x301] else if c = 'Ô' then ['O', Char.ofNat 0x302]
  else if c = 'Õ' then ['O', Char.ofNat 0x303]
  else if c = 'Ú' then ['U', Char.ofNat 0x301] else if c = 'Ü' then ['U', Char.ofNat 0x308]
  else if c = 'Ç' then ['C', Char.ofNat 0x327]
  else [c]

/-- StringUtils.removeAccents: NFD-normalize then strip the combining
diacritical marks U+0300 - U+036F. -/
def removeAccents (s : String) : String :=
  String.mk (((s.data.map nfdChar).flatten).filter
    (fun c => !(decide (0x300 ≤ c.toNat) && decide (c.toNat ≤ 0x36F))))

/-- StringUtils.searchMatch: false on an empty side, otherwise substring
containment on lowercased, accent-stripped text. -/
def searchMatch (text search : String) : Bool :=
  if text == "" || search == "" then false
  else jsIncludes (removeAccents (jsToLower text)) (removeAccents (jsToLower search))

/-- AngolaUtils.taskCategories identifiers. -/
def validCategories : List String :=
  ["pessoal", "trabalho", "familia", "saude", "financas", "educacao", "lazer", "outros"]

/-! Task data model, from StorageManager. A task field that may be absent
in JavaScript (undefined) is an Option; the id uses the empty string for
the JavaScript-falsy absent case, matching the truthiness tests of the
source. -/

structure Task where
  id : String
  title : String
  description : String
  category : String
  priority : String
  status : String
  dueDate : Option Int
  createdAt : Option Int
  updatedAt : Option Int
  completedAt : Option Int
deriving DecidableEq, Repr

def coercePriority (p : String) : String :=
  if p = "alta" || p = "media" || p = "baixa" then p else "media"

def coerceCategory (c : String) : String :=
  if validCategories.contains c then c else "outros"

def coerceStatus (s : String) : String :=
  if s = "pending" || s = "completed" || s = "archived" then s else "pending"

/-- StorageManager.saveTask, pure part: validation, defaulting,
sanitization and coercion of one task. The fresh id supply and the clock
are explicit parameters. Throwing is modeled with Except. -/
def saveTaskPure (now : Int) (freshId : String) (t : Task) : Except String Task :=
  if jsTrim t.title = "" then .error "Task title is required"
  else .ok
    { id := if t.id = "" then freshId else t.id
      title := sanitizeHtml t.title
      description := sanitizeHtml t.description
      category := coerceCategory t.category
      priority := coercePriority t.priority
      status := coerceStatus t.status
      dueDate := t.dueDate
      createdAt := some (t.createdAt.getD (angolaNow now))
      updatedAt := some (angolaNow now)
      completedAt := t.completedAt }

/-- Invariant satisfied by every task the persistence layer has stored
through saveTask. -/
def persistedInvariant (t : Task) : Prop :=
  t.id ≠ "" ∧ jsTrim t.title ≠ "" ∧
  (t.priority = "alta" ∨ t.priority = "media" ∨ t.priority = "baixa") ∧
  (t.status = "pending" ∨ t.status = "completed" ∨ t.status = "archived") ∧
  validCategories.contains t.category = true ∧
  t.createdAt.isSome = true

instance (t : Task) : Decidable (persistedInvariant t) := by
  unfold persistedInvariant
  infer_instance

/-- Effect of re-saving an already persisted task at time now: the title
and the description are sanitized again and updatedAt is refreshed; every
other field is kept. -/
def reSave (now : Int) (t : Task) : Task :=
  { t with title := sanitizeHtml t.title
           description := sanitizeHtml t.description
           updatedAt := some (angolaNow now) }

/-! Analytics events and the store state. -/

inductive EventData where
  | taskSaved (taskId category priority : String)
  | taskCompleted (taskId category priority : String) (daysToComplete : Option Int)
  | taskDeleted (taskId : String)
  | dataImported (tasksCount : Nat) (importDate : Int)
deriving DecidableEq, Repr

structure AEvent where
  id : String
  type : String
  data : EventData
  date : Int
  timestamp : Int
deriving DecidableEq, Repr

/-- The three collections of the document store. Setting values are
opaque JSON payloads, modeled by their serialized text. -/
structure Store where
  tasks : List Task
  settings : List (String × String)
  analytics : List AEvent
deriving DecidableEq, Repr

/-- IndexedDB store.put: replace the record with the same key, else
append. -/
def putBy {α : Type} (key : α → String) (l : List α) (x : α) : List α :=
  if l.any (fun u => key u == key x) then
    l.map (fun u => if key u == key x then x else u)
  else l ++ [x]

def putTask (l : List Task) (t : Task) : List Task := putBy Task.id l t

def putEvent (l : List AEvent) (e : AEvent) : List AEvent := putBy AEvent.id l e

def putSetting (l : List (String × String)) (kv : String × String) :
    List (String × String) := putBy Prod.fst l kv

/-- StorageManager.saveTask at the store level: validate and normalize
via saveTaskPure, persist into the tasks collection, then record a
task_saved analytics event (trackEvent). The Nat argument is the fresh id
counter; generateId is consumed once when the task id is missing and once
for the event id. -/
def saveTaskS (now : Int) (st : Store) (g : Nat) (t : Task) :
    Except String (Store × Nat × Task) :=
  match saveTaskPure now (generateId g) t with
  | .error e => .error e
  | .ok t' =>
    let g1 := if t.id = "" then g + 1 else g
    let ev : AEvent :=
      { id := generateId g1, type := "task_saved",
        data := .taskSaved t'.id t'.category t'.priority,
        date := angolaNow now, timestamp := now }
    .ok ({ st with tasks := putTask st.tasks t',
                   analytics := putEvent st.analytics ev }, g1 + 1, t')

/-- StorageManager.getTask via the id-keyed object store. -/
def getTask (st : Store) (id : String) : Option Task :=
  st.tasks.find? (fun u => u.id == id)

/-- StorageManager.completeTask: load the task, return false when absent,
set status completed and stamp completedAt, re-save, then record a
task_completed event whose daysToComplete is ceil of completedAt minus
createdAt in days when a due date exists, and null otherwise. -/
def completeTask (now : Int) (st : Store) (g : Nat) (id : String) :
    Store × Nat × Bool :=
  match getTask st id with
  | none => (st, g, false)
  | some task =>
    let t1 := { task with status := "completed",
                          completedAt := some (angolaNow now) }
    match saveTaskS now st g t1 with
    | .error _ => (st, g, false)
    | .ok (st1, g1, t') =>
      let days : Option Int :=
        match t'.dueDate with
        | some _ =>
          some (jsCeilDiv (t'.completedAt.getD 0 - t'.createdAt.getD 0) 86400000)
        | none => none
      let ev : AEvent :=
        { id := generateId g1, type := "task_completed",
          data := .taskCompleted id t'.category t'.priority days,
          date := angolaNow now, timestamp := now }
      ({ st1 with analytics := putEvent st1.analytics ev }, g1 + 1, true)

/-! Filtering and sorting, from StorageManager.getTasks. -/

/-- Filter set of getTasks; the empty string is the JavaScript-falsy
absent filter. -/
structure Filters where
  status : String := ""
  category : String := ""
  priority : String := ""
  today : Bool := false
  search : String := ""
deriving DecidableEq, Repr

/-- The priorityOrder lookup: alta 3, media 2, baixa 1, and the or-else 1
default for any other value. -/
def priorityOrder (p : String) : Int :=
  if p = "alta" then 3 else if p = "media" then 2 else if p = "baixa" then 1 else 1

/-- The comparator passed to tasks.sort: priority descending first; for
equal priorities due date ascending when both tasks carry one, otherwise
creation date descending. A negative result places a before b. -/
def taskCompare (a b : Task) : Int :=
  let ap := priorityOrder a.priority
  let bp := priorityOrder b.priority
  if ap ≠ bp then bp - ap
  else
    match a.dueDate, b.dueDate with
    | some da, some db => da - db
    | _, _ => b.createdAt.getD 0 - a.createdAt.getD 0

/-- Stable insertion step for the sort model. -/
def insertTask (x : Task) : List Task → List Task
  | [] => [x]
  | y :: ys => if taskCompare x y ≤ 0 then x :: y :: ys else y :: insertTask x ys

/-- Array.prototype.sort with taskCompare, modeled as a stable insertion
sort (the ECMAScript sort is required to be stable; with this comparator,
which is not transitive, any stable comparison sort is a faithful model
on the inputs the claims examine). -/
def sortTasks : List Task → List Task
  | [] => []
  | x :: xs => insertTask x (sortTasks xs)

/-- Calendar day of a timestamp (toDateString equality is modeled as
equality of the UTC day number). -/
def dayNumber (ms : Int) : Int := ms.fdiv 86400000

/-- The filter pipeline of getTasks, in source order: status, category,
priority, today, search. -/
def applyFilters (now : Int) (f : Filters) (tasks : List Task) : List Task :=
  let t1 := if f.status = "" then tasks else tasks.filter (fun t => t.status == f.status)
  let t2 := if f.category = "" then t1 else t1.filter (fun t => t.category == f.category)
  let t3 := if f.priority = "" then t2 else t2.filter (fun t => t.priority == f.priority)
  let t4 :=
    if f.today then
      t3.filter (fun t =>
        match t.dueDate with
        | none => false
        | some d => dayNumber d == dayNumber (angolaNow now))
    else t3
  if f.search = "" then t4
  else
    let searchTerm := jsToLower f.search
    t4.filter (fun t =>
      searchMatch t.title searchTerm || searchMatch t.description searchTerm)

/-- StorageManager.getTasks: filter then sort the stored task list. -/
def getTasks (now : Int) (f : Filters) (tasks : List Task) : List Task :=
  sortTasks (applyFilters now f tasks)

/-! Analytics queries, export and import. -/

structure AnalyticsFilters where
  type : String := ""
  startDate : Option Int := none
  endDate : Option Int := none
deriving DecidableEq, Repr

/-- StorageManager.getAnalytics: type filter, then inclusive start and
end date filters. -/
def getAnalyticsF (events : List AEvent) (f : AnalyticsFilters) : List AEvent :=
  let e1 := if f.type = "" then events else events.filter (fun e => e.type == f.type)
  let e2 :=
    match f.startDate with
    | some s => e1.filter (fun e => decide (s ≤ e.date))
    | none => e1
  match f.endDate with
  | some en => e2.filter (fun e => decide (e.date ≤ en))
  | none => e2

/-- The export snapshot: tasks via getTasks with no filters, the settings
object, all analytics, an export timestamp and the schema version.
JSON.stringify followed by JSON.parse on this JSON-safe snapshot is the
identity, so the model works on the structured value directly. -/
structure ExportData where
  tasks : List Task
  settings : List (String × String)
  analytics : List AEvent
  exportDate : Int
  version : Nat
deriving DecidableEq, Repr

def exportData (now : Int) (st : Store) : ExportData :=
  { tasks := getTasks now {} st.tasks
    settings := st.settings
    analytics := getAnalyticsF st.analytics {}
    exportDate := angolaNow now
    version := 1 }

/-- The task loop of importData: save each task in order; a validation
throw aborts the loop at once, leaving the effects of the earlier
iterations in place (the store is mutated in place in the source). -/
def importTasksRun (now : Int) : Store → Nat → List Task → (Store × Nat) × Option String
  | st, g, [] => ((st, g), none)
  | st, g, t :: ts =>
    match saveTaskS now st g t with
    | .error e => ((st, g), some e)
    | .ok (st', g', _) => importTasksRun now st' g' ts

def setSettingS (st : Store) (key value : String) : Store :=
  { st with settings := putSetting st.settings (key, value) }

/-- StorageManager.importData on the parsed snapshot: re-save every task
(aborting on the first validation failure), then re-set every setting,
then record a data_imported event. The second component is the propagated
error, none on success. -/
def importData (now : Int) (st : Store) (g : Nat) (d : ExportData) :
    (Store × Nat) × Option String :=
  match importTasksRun now st g d.tasks with
  | (sg, some e) => (sg, some e)
  | ((st1, g1), none) =>
    let st2 := d.settings.foldl (fun acc kv => setSettingS acc kv.1 kv.2) st1
    let ev : AEvent :=
      { id := generateId g1, type := "data_imported",
        data := .dataImported d.tasks.length d.exportDate,
        date := angolaNow now, timestamp := now }
    (({ st2 with analytics := putEvent st2.analytics ev }, g1 + 1), none)

/-- StorageManager.cleanupOldData: compute the 30-day threshold from the
raw clock, query the analytics at or before it, delete each of them by
id, and return true (the removal count is only logged). -/
def cleanupOldData (now : Int) (st : Store) : Store × Bool :=
  let threshold := now - 30 * 86400000
  let oldEvents := getAnalyticsF st.analytics { endDate := some threshold }
  let remaining :=
    oldEvents.foldl (fun acc e => acc.filter (fun x => x.id != e.id)) st.analytics
  ({ st with analytics := remaining }, true)

/-! Sync queue, from StorageManager.addToSyncQueue / processSyncQueue. -/

/-- A queued item; the operation thunk itself is identified by the item,
and its outcome at a given drain cycle is supplied by an oracle function
(true means the invocation succeeded, false that it threw). -/
structure SyncItem where
  id : String
  timestamp : Int
deriving DecidableEq, Repr

structure SyncState where
  online : Bool
  queue : List SyncItem
  persisted : List SyncItem
deriving DecidableEq, Repr

/-- The drain loop: the snapshot is walked in order and every item whose
invocation throws is pushed back onto the (emptied) live queue. -/
def drainLoop (exec : SyncItem → Bool) : List SyncItem → List SyncItem → List SyncItem
  | acc, [] => acc
  | acc, i :: rest =>
    if exec i then drainLoop exec acc rest else drainLoop exec (acc ++ [i]) rest

/-- StorageManager.processSyncQueue: a no-op while offline or empty;
otherwise snapshot the queue, clear it, invoke every snapshotted
operation, re-enqueue the throwers and persist the remainder. -/
def processSyncQueueS (exec : SyncItem → Bool) (st : SyncState) : SyncState :=
  if !st.online || st.queue.isEmpty then st
  else
    let remainder := drainLoop exec [] st.queue
    { st with queue := remainder, persisted := remainder }

/-! Service worker, from sw.js. -/

structure Response where
  status : Nat
  statusText : String
  contentType : String
  body : String
deriving DecidableEq, Repr

/-- A fetch-event request: its pathname and its mode. -/
structure Request where
  path : String
  mode : String
deriving DecidableEq, Repr

inductive FetchOutcome where
  | ok (r : Response)
  | err
deriving DecidableEq, Repr

/-- The value a respondWith caller can receive from the strategy
functions: a Response, or the JavaScript undefined value (a promise that
resolved with no value). -/
inductive RespValue where
  | resp (r : Response)
  | jsUndefined
deriving DecidableEq, Repr

def cacheName : String := "list-kamba-v1.0.0"
def staticCacheName : String := "list-kamba-v1.0.0-static"
def dynamicCacheName : String := "list-kamba-v1.0.0-dynamic"
def runtimeCacheName : String := "list-kamba-v1.0.0-runtime"

/-- A cache generation: response snapshots keyed by request path. -/
def lookupCache (c : List (String × Response)) (p : String) : Option Response :=
  (c.find? (fun e => e.1 == p)).map Prod.snd

def cachePut (c : List (String × Response)) (p : String) (r : Response) :
    List (String × Response) := putBy Prod.fst c (p, r)

/-- The staleWhileRevalidate strategy. The cached copy is looked up in
the runtime generation; the background fetch refreshes the cache on a 200
response. The returned value is cachedResponse when present; otherwise it
is the resolution of the background fetch promise, whose catch handler
swallows the rejection and resolves with undefined. The trailing
handleOfflineRequest disjunct of the source is unreachable, because the
fetch promise object is always truthy, so it is absent from the result. -/
def staleWhileRevalidate (runtime : List (String × Response))
    (net : FetchOutcome) (req : Request) : RespValue × List (String × Response) :=
  let cached := lookupCache runtime req.path
  let runtime1 :=
    match net with
    | .ok r => if r.status = 200 then cachePut runtime req.path r else runtime
    | .err => runtime
  let result :=
    match cached with
    | some r => RespValue.resp r
    | none =>
      match net with
      | .ok r => RespValue.resp r
      | .err => RespValue.jsUndefined
  (result, runtime1)

/-- The synthesized offline JSON error body, JSON.stringify of the object
with the error and message fields. -/
def offlineApiBody : String :=
  "\x7b\"error\":\"offline\",\"message\":\"Você está offline. Os dados serão sincronizados quando a conexão for restaurada.\"\x7d"

def offlineApiResponse : Response :=
  { status := 503, statusText := "Service Unavailable",
    contentType := "application/json", body := offlineApiBody }

/-- The synthesized offline HTML document of handleOfflineRequest. -/
def offlineHtmlBody : String :=
  "<!DOCTYPE html>\n" ++
  "<html lang=\"pt-AO\">\n<head>\n" ++
  "<meta charset=\"UTF-8\">\n" ++
  "<meta name=\"viewport\" content=\"width=device-width, initial-scale=1.0\">\n" ++
  "<title>Offline - List Kamba</title>\n" ++
  "<style>\n" ++
  "body \x7b font-family: -apple-system, BlinkMacSystemFont, \x27Segoe UI\x27, Roboto, sans-serif; text-align: center; padding: 40px; background: #f5f5f5; \x7d\n" ++
  ".offline-message \x7b max-width: 400px; margin: 0 auto; background: white; padding: 40px; border-radius: 12px; box-shadow: 0 4px 6px rgba(0,0,0,0.1); \x7d\n" ++
  ".offline-icon \x7b font-size: 64px; margin-bottom: 20px; \x7d\n" ++
  "h1 \x7b color: #2F5F8F; margin-bottom: 16px; \x7d\n" ++
  "p \x7b color: #666; line-height: 1.6; \x7d\n" ++
  "button \x7b background: #2F5F8F; color: white; border: none; padding: 12px 24px; border-radius: 6px; cursor: pointer; margin-top: 20px; \x7d\n" ++
  "</style>\n</head>\n<body>\n" ++
  "<div class=\"offline-message\">\n" ++
  "<div class=\"offline-icon\">📱</div>\n" ++
  "<h1>Você está offline</h1>\n" ++
  "<p>Não foi possível carregar esta página. Verifique sua conexão com a internet e tente novamente.</p>\n" ++
  "<p>O List Kamba funciona offline para a maioria das funcionalidades!</p>\n" ++
  "<button onclick=\"window.location.reload()\">Tentar Novamente</button>\n" ++
  "</div>\n</body>\n</html>"

def offlineHtmlResponse : Response :=
  { status := 200, statusText := "", contentType := "text/html",
    body := offlineHtmlBody }

/-- handleOfflineRequest. For a navigation request the source returns
cache.match of /index.html or-else cache.match of /; since cache.match
yields a promise object, which is always truthy, the or-else branch is
unreachable and the caller receives the resolution of the first match:
the cached index document, or undefined when it is absent. API paths get
the synthesized 503 JSON response, everything else the offline HTML
document with status 200. -/
def handleOfflineRequest (staticCache : List (String × Response))
    (req : Request) : RespValue :=
  if req.mode = "navigate" then
    match lookupCache staticCache "/index.html" with
    | some r => RespValue.resp r
    | none => RespValue.jsUndefined
  else if jsStartsWith req.path "/api/" then RespValue.resp offlineApiResponse
  else RespValue.resp offlineHtmlResponse

/-- The condition of the activate listener for deleting one cache
generation: the name mentions the application namespace and differs from
all three current generation names. -/
def activateDeletes (name : String) : Bool :=
  jsIncludes name "list-kamba" && !(name == staticCacheName) &&
  !(name == dynamicCacheName) && !(name == runtimeCacheName)

/-- The activate step over the pre-activation cache-name enumeration:
the names that survive the eviction. -/
def activateCleanup (cacheNames : List String) : List String :=
  cacheNames.filter (fun n => !activateDeletes n)

/-! Concrete inputs used in counterexamples and witnesses. -/

/-- A title of 101 identical letters (no HTML-escapable characters). -/
def longTitle : String := String.mk (List.replicate 101 'a')

/-- An arbitrary cached copy of the root document. -/
def rootResponse : Response :=
  { status := 200, statusText := "OK", contentType := "text/html",
    body := "<html>app shell</html>" }

/-! Helper lemmas. -/

theorem escapeChar_ne_nil (c : Char) : escapeChar c ≠ [] := by
  unfold escapeChar
  split
  · decide
  · split
    · decide
    · split
      · decide
      · split
        · decide
        · simp

theorem sanitizeHtml_ne_empty {s : String} (h : s ≠ "") : sanitizeHtml s ≠ "" := by
  unfold sanitizeHtml
  intro hEq
  have hl : (s.data.map escapeChar).flatten = [] := by
    simpa using congrArg String.data hEq
  have hs : s.data ≠ [] := by
    intro hnil
    apply h
    cases s with
    | mk data =>
      simp only [String.data] at hnil
      subst hnil
      rfl
  cases hd : s.data with
  | nil => exact hs hd
  | cons c cs =>
    rw [hd] at hl
    simp only [List.map_cons, List.flatten_cons, List.append_eq_nil] at hl
    exact escapeChar_ne_nil c hl.1

theorem jsTrim_ne_empty_of {s : String} (h : jsTrim s ≠ "") : s ≠ "" := by
  intro hs
  apply h
  rw [hs]
  rfl

theorem coercePriority_valid (p : String) :
    coercePriority p = "alta" ∨ coercePriority p = "media" ∨ coercePriority p = "baixa" := by
  unfold coercePriority
  split
  · rename_i h
    simp only [Bool.or_eq_true, decide_eq_true_eq] at h
    rcases h with (h | h) | h <;> simp [h]
  · simp

theorem coerceStatus_valid (s : String) :
    coerceStatus s = "pending" ∨ coerceStatus s = "completed" ∨ coerceStatus s = "archived" := by
  unfold coerceStatus
  split
  · rename_i h
    simp only [Bool.or_eq_true, decide_eq_true_eq] at h
    rcases h with (h | h) | h <;> simp [h]
  · simp

theorem coerceCategory_valid (c : String) :
    validCategories.contains (coerceCategory c) = true := by
  unfold coerceCategory
  split
  · assumption
  · decide

theorem self_mem_putBy {α : Type} (key : α → String) (l : List α) (x : α) :
    x ∈ putBy key l x := by
  unfold putBy
  split
  · rename_i h
    rw [List.any_eq_true] at h
    obtain ⟨u, hu, hkey⟩ := h
    exact List.mem_map.mpr ⟨u, hu, by simp [hkey]⟩
  · exact List.mem_append_right _ (List.mem_singleton.mpr rfl)

theorem mem_putBy {α : Type} (key : α → String) (l : List α) (x y : α)
    (h : y ∈ putBy key l x) : y ∈ l ∨ y = x := by
  unfold putBy at h
  split at h
  · rw [List.mem_map] at h
    obtain ⟨u, hu, heq⟩ := h
    by_cases hk : (key u == key x) = true
    · right; rw [hk] at heq; simpa using heq.symm
    · left; simp only [hk] at heq; simp at heq; rwa [← heq]
  · rcases List.mem_append.mp h with h1 | h1
    · exact Or.inl h1
    · exact Or.inr (List.mem_singleton.mp h1)

/-! Claim theorems. -/

/-- C1 (amended; the source enforces no length bound on the title):
a task is accepted by saveTask exactly when its title is non-empty after
trimming, and every accepted task is persisted with a priority in the
fixed priority set, a status in pending / completed / archived, a
category in the fixed category set, a non-empty HTML-sanitized title, a
refreshed updatedAt, and with an id and a createdAt assigned when they
were missing. -/
theorem saveTask_validation (now : Int) (st : Store) (g : Nat) (t : Task) :
    ((∃ r, saveTaskS now st g t = .ok r) ↔ jsTrim t.title ≠ "") ∧
    (∀ st' g' t', saveTaskS now st g t = .ok (st', g', t') →
      (t'.priority = "alta" ∨ t'.priority = "media" ∨ t'.priority = "baixa") ∧
      (t'.status = "pending" ∨ t'.status = "completed" ∨ t'.status = "archived") ∧
      validCategories.contains t'.category = true ∧
      t'.title = sanitizeHtml t.title ∧ t'.title ≠ "" ∧
      t'.updatedAt = some (angolaNow now) ∧
      t'.id = (if t.id = "" then generateId g else t.id) ∧
      t'.createdAt = some (t.createdAt.getD (angolaNow now)) ∧
      t' ∈ st'.tasks) := by
  constructor
  · constructor
    · rintro ⟨r, hr⟩ hempty
      simp [saveTaskS, saveTaskPure, hempty] at hr
    · intro h
      unfold saveTaskS saveTaskPure
      rw [if_neg h]
      exact ⟨_, rfl⟩
  · intro st' g' t' hok
    by_cases h : jsTrim t.title = ""
    · simp [saveTaskS, saveTaskPure, h] at hok
    · unfold saveTaskS saveTaskPure at hok
      rw [if_neg h] at hok
      simp only [Except.ok.injEq, Prod.mk.injEq] at hok
      obtain ⟨h1, h2, h3⟩ := hok
      subst h1
      subst h2
      subst h3
      exact ⟨coercePriority_valid t.priority, coerceStatus_valid t.status,
        coerceCategory_valid t.category, rfl,
        sanitizeHtml_ne_empty (jsTrim_ne_empty_of h), rfl, rfl, rfl,
        self_mem_putBy Task.id st.tasks _⟩

set_option maxRecDepth 8000 in
/-- C1 counterexample: a task whose title has 101 characters is accepted
and persisted with a title of 101 characters, so the persisted title is
not bounded by 100 characters as the claim states. -/
theorem saveTask_title_length_counterexample :
    ((saveTaskS 0 ⟨[], [], []⟩ 0
        ⟨"x", longTitle, "", "outros", "media", "pending", none, some 0, none, none⟩).toOption.map
      (fun r => r.2.2.title.length)) = some 101 ∧ ¬(101 ≤ 100) := by
  constructor
  · decide
  · decide

/-- C1 witness: a concrete draft task with a non-empty title is accepted
by saveTask. -/
theorem saveTask_validation_witness :
    jsTrim (Task.title ⟨"", "Pagar conta", "", "financas", "alta", "", none, none, none, none⟩) ≠ "" ∧
    (∃ r, saveTaskS 0 ⟨[], [], []⟩ 0
        ⟨"", "Pagar conta", "", "financas", "alta", "", none, none, none, none⟩ = .ok r) :=
  ⟨by decide,
   (saveTask_validation 0 ⟨[], [], []⟩ 0
      ⟨"", "Pagar conta", "", "financas", "alta", "", none, none, none, none⟩).1.mpr (by decide)⟩

/-- C3 (code bug in the source): with no cached copy and a failing
network fetch, the staleWhileRevalidate caller receives the JavaScript
undefined value instead of a synthesized offline-fallback response; the
background catch handler resolves the fetch promise with undefined, and
the trailing handleOfflineRequest disjunct is unreachable because a
promise object is always truthy. -/
theorem staleWhileRevalidate_offline_bug :
    (staleWhileRevalidate [] FetchOutcome.err ⟨"/pages/tasks.html", "navigate"⟩).1
        = RespValue.jsUndefined ∧
    (∀ r : Response,
      (staleWhileRevalidate [] FetchOutcome.err ⟨"/pages/tasks.html", "navigate"⟩).1
        ≠ RespValue.resp r) ∧
    (∀ runtime net req r, lookupCache runtime req.path = some r →
      (staleWhileRevalidate runtime net req).1 = RespValue.resp r) ∧
    (∀ runtime req r, lookupCache runtime req.path = none →
      (staleWhileRevalidate runtime (FetchOutcome.ok r) req).1 = RespValue.resp r) := by
  refine ⟨rfl, ?_, ?_, ?_⟩
  · intro r h
    simp [staleWhileRevalidate, lookupCache] at h
  · intro runtime net req r h
    simp [staleWhileRevalidate, h]
  · intro runtime req r h
    simp [staleWhileRevalidate, h]

/-- C3 witness: a concrete cached copy is returned unchanged regardless
of the background fetch failing. -/
theorem staleWhileRevalidate_offline_bug_witness :
    lookupCache [("/x", rootResponse)] (Request.path ⟨"/x", "no-cors"⟩) = some rootResponse ∧
    (staleWhileRevalidate [("/x", rootResponse)] FetchOutcome.err ⟨"/x", "no-cors"⟩).1
      = RespValue.resp rootResponse :=
  ⟨by decide,
   staleWhileRevalidate_offline_bug.2.2.1 [("/x", rootResponse)] FetchOutcome.err
     ⟨"/x", "no-cors"⟩ rootResponse (by decide)⟩

set_option maxRecDepth 8000 in
/-- C4 (code bug in the source): a navigation-mode request reaching
offline fallback with the root document cached but the index document
absent receives the JavaScript undefined value, not the cached app-shell
document; the or-else on the root match is unreachable because
cache.match returns a promise object, which is always truthy. The API
and generic branches do behave as claimed: API paths get the offline
JSON body with status 503, every other request the synthesized offline
HTML document with status 200. -/
theorem handleOfflineRequest_navigation_bug :
    handleOfflineRequest [("/", rootResponse)] ⟨"/", "navigate"⟩ = RespValue.jsUndefined ∧
    lookupCache [("/", rootResponse)] "/" = some rootResponse ∧
    handleOfflineRequest [("/", rootResponse)] ⟨"/api/tasks", "cors"⟩
      = RespValue.resp offlineApiResponse ∧
    offlineApiResponse.status = 503 ∧
    jsIncludes offlineApiResponse.body "\"error\":\"offline\"" = true ∧
    handleOfflineRequest [("/", rootResponse)] ⟨"/pages/tasks.html", "no-cors"⟩
      = RespValue.resp offlineHtmlResponse ∧
    offlineHtmlResponse.status = 200 := by
  refine ⟨rfl, rfl, rfl, rfl, by decide, rfl, rfl⟩

/-- C5: a cache generation named in the pre-activation enumeration is
deleted by activation exactly when its name mentions the application
namespace and differs from all three current generation names; in
particular the three current names and all non-namespaced caches
survive. -/
theorem activate_eviction (names : List String) (n : String) (h : n ∈ names) :
    (n ∉ activateCleanup names ↔
      (jsIncludes n "list-kamba" = true ∧ n ≠ staticCacheName ∧
       n ≠ dynamicCacheName ∧ n ≠ runtimeCacheName)) := by
  unfold activateCleanup
  rw [List.mem_filter]
  constructor
  · intro hnot
    have hdel : activateDeletes n = true := by
      by_contra hfalse
      exact hnot ⟨h, by simp [Bool.eq_false_iff.mpr hfalse]⟩
    simp only [activateDeletes, Bool.and_eq_true, Bool.not_eq_true',
      beq_eq_false_iff_ne] at hdel
    exact ⟨hdel.1.1.1, hdel.1.1.2, hdel.1.2, hdel.2⟩
  · rintro ⟨h1, h2, h3, h4⟩ ⟨_, hkeep⟩
    have hdel : activateDeletes n = true := by
      simp only [activateDeletes, Bool.and_eq_true, Bool.not_eq_true',
        beq_eq_false_iff_ne]
      exact ⟨⟨⟨h1, h2⟩, h3⟩, h4⟩
    rw [hdel] at hkeep
    simp at hkeep

/-- C5 witness: a stale namespaced generation from the enumeration is
evicted. -/
theorem activate_eviction_witness :
    ("list-kamba-v0.9.0-static"
        ∈ ["list-kamba-v0.9.0-static", staticCacheName, "unrelated-cache"]) ∧
    ("list-kamba-v0.9.0-static"
        ∉ activateCleanup ["list-kamba-v0.9.0-static", staticCacheName, "unrelated-cache"]) :=
  ⟨by decide,
   (activate_eviction ["list-kamba-v0.9.0-static", staticCacheName, "unrelated-cache"]
      "list-kamba-v0.9.0-static" (by decide)).mpr (by decide)⟩

theorem drainLoop_eq (exec : SyncItem → Bool) :
    ∀ (q acc : List SyncItem),
      drainLoop exec acc q = acc ++ q.filter (fun i => !(exec i)) := by
  intro q
  induction q with
  | nil => intro acc; simp [drainLoop]
  | cons i rest ih =>
    intro acc
    by_cases h : exec i = true
    · simp [drainLoop, h, ih, List.filter_cons]
    · have h' : exec i = false := Bool.eq_false_iff.mpr h
      simp [drainLoop, h', ih, List.filter_cons]

/-- C6: processSyncQueue is a no-op while offline or on an empty queue;
when online and non-empty the live queue and its persisted mirror end as
exactly the snapshotted items whose operation threw, in order; and an
item whose operation throws on the first drain and succeeds on the second
is still queued after one drain and gone after two. -/
theorem processSyncQueue_spec :
    (∀ exec st, st.online = false → processSyncQueueS exec st = st) ∧
    (∀ exec st, st.queue = [] → processSyncQueueS exec st = st) ∧
    (∀ exec st, st.online = true → st.queue ≠ [] →
      (processSyncQueueS exec st).queue = st.queue.filter (fun i => !(exec i)) ∧
      (processSyncQueueS exec st).persisted = st.queue.filter (fun i => !(exec i)) ∧
      (processSyncQueueS exec st).online = st.online) ∧
    (∀ exec1 exec2 st item, st.online = true → item ∈ st.queue →
      exec1 item = false → exec2 item = true →
      item ∈ (processSyncQueueS exec1 st).queue ∧
      item ∉ (processSyncQueueS exec2 (processSyncQueueS exec1 st)).queue) := by
  have hrun : ∀ exec (st : SyncState), st.online = true → st.queue ≠ [] →
      processSyncQueueS exec st =
        { st with queue := st.queue.filter (fun i => !(exec i)),
                  persisted := st.queue.filter (fun i => !(exec i)) } := by
    intro exec st h1 h2
    unfold processSyncQueueS
    rw [if_neg]
    · rw [drainLoop_eq]
      simp
    · simp [h1, List.isEmpty_iff, h2]
  refine ⟨?_, ?_, ?_, ?_⟩
  · intro exec st h
    unfold processSyncQueueS
    rw [if_pos]
    simp [h]
  · intro exec st h
    unfold processSyncQueueS
    rw [if_pos]
    simp [h]
  · intro exec st h1 h2
    rw [hrun exec st h1 h2]
    exact ⟨rfl, rfl, rfl⟩
  · intro exec1 exec2 st item h1 h2 hfail hsucc
    have hne : st.queue ≠ [] := by
      intro hnil; rw [hnil] at h2; simp at h2
    rw [hrun exec1 st h1 hne]
    have hmem1 : item ∈ st.queue.filter (fun i => !(exec1 i)) :=
      List.mem_filter.mpr ⟨h2, by simp [hfail]⟩
    refine ⟨hmem1, ?_⟩
    have hne1 : st.queue.filter (fun i => !(exec1 i)) ≠ [] := by
      intro hnil; rw [hnil] at hmem1; simp at hmem1
    rw [hrun exec2 ⟨st.online, st.queue.filter (fun i => !(exec1 i)),
          st.queue.filter (fun i => !(exec1 i))⟩ h1 hne1]
    intro hmem2
    have := (List.mem_filter.mp hmem2).2
    simp [hsucc] at this

theorem taskCompare_total (a b : Task) : taskCompare a b ≤ 0 ∨ taskCompare b a ≤ 0 := by
  unfold taskCompare
  dsimp only
  by_cases h : priorityOrder a.priority = priorityOrder b.priority
  · rw [if_neg (by omega), if_neg (by omega)]
    rcases ha : a.dueDate with _ | da <;> rcases hb : b.dueDate with _ | db <;>
      simp only [ha, hb] <;> omega
  · rw [if_pos (by omega), if_pos (by omega)]
    omega

theorem insertTask_perm (x : Task) (l : List Task) : (insertTask x l).Perm (x :: l) := by
  induction l with
  | nil => simp [insertTask]
  | cons y ys ih =>
    unfold insertTask
    split
    · exact List.Perm.refl _
    · exact (List.Perm.cons y ih).trans (List.Perm.swap x y ys)

theorem sortTasks_perm (l : List Task) : (sortTasks l).Perm l := by
  induction l with
  | nil => simp [sortTasks]
  | cons x xs ih => exact (insertTask_perm x (sortTasks xs)).trans (List.Perm.cons x ih)

theorem chainR_insertTask (x : Task) :
    ∀ l : List Task, List.Chain' (fun a b => taskCompare a b ≤ 0) l →
      List.Chain' (fun a b => taskCompare a b ≤ 0) (insertTask x l) := by
  intro l
  induction l with
  | nil => intro _; simp [insertTask]
  | cons y ys ih =>
    intro h
    unfold insertTask
    split
    · rename_i hxy
      rw [List.chain'_cons]
      exact ⟨hxy, h⟩
    · rename_i hxy
      have hchain_ys : List.Chain' (fun a b => taskCompare a b ≤ 0) ys := h.tail
      cases ys with
      | nil =>
        unfold insertTask
        rw [List.chain'_cons]
        refine ⟨?_, List.chain'_singleton x⟩
        rcases taskCompare_total x y with hc | hc
        · exact absurd hc hxy
        · exact hc
      | cons z zs =>
        unfold insertTask
        split
        · rename_i hxz
          rw [List.chain'_cons]
          constructor
          · rcases taskCompare_total x y with hc | hc
            · exact absurd hc hxy
            · exact hc
          · rw [List.chain'_cons]
            exact ⟨hxz, hchain_ys⟩
        · rename_i hxz
          rw [List.chain'_cons]
          constructor
          · exact (List.chain'_cons.mp h).1
          · have h2 := ih hchain_ys
            unfold insertTask at h2
            rw [if_neg hxz] at h2
            exact h2

theorem sortTasks_chain (l : List Task) :
    List.Chain' (fun a b => taskCompare a b ≤ 0) (sortTasks l) := by
  induction l with
  | nil => simp [sortTasks]
  | cons x xs ih => exact chainR_insertTask x (sortTasks xs) ih

theorem taskCompare_le_iff (a b : Task) :
    taskCompare a b ≤ 0 ↔
      (priorityOrder b.priority ≤ priorityOrder a.priority ∧
       (priorityOrder a.priority = priorityOrder b.priority →
         (match a.dueDate, b.dueDate with
          | some da, some db => da ≤ db
          | _, _ => b.createdAt.getD 0 ≤ a.createdAt.getD 0))) := by
  unfold taskCompare
  dsimp only
  by_cases h : priorityOrder a.priority = priorityOrder b.priority
  · rw [if_neg (by omega)]
    rcases ha : a.dueDate with _ | da <;> rcases hb : b.dueDate with _ | db <;>
      simp only [ha, hb, h] <;>
      exact ⟨fun hx => ⟨le_refl _, fun _ => by omega⟩,
             fun hx => by have := hx.2 (by trivial); omega⟩
  · rw [if_pos (by omega)]
    constructor
    · intro hle
      exact ⟨by omega, fun heq => absurd heq h⟩
    · rintro ⟨h1, _⟩
      omega

theorem chain_pairwise_of_trans {α : Type} {R : α → α → Prop}
    (ht : ∀ a b c, R a b → R b c → R a c) :
    ∀ l : List α, List.Chain' R l → List.Pairwise R l := by
  intro l
  induction l with
  | nil => intro _; exact List.Pairwise.nil
  | cons a l2 ih =>
    intro h
    have htail := ih h.tail
    rw [List.pairwise_cons]
    refine ⟨?_, htail⟩
    intro b hb
    cases l2 with
    | nil => simp at hb
    | cons c cs =>
      have hac : R a c := (List.chain'_cons.mp h).1
      rcases List.mem_cons.mp hb with rfl | hb2
      · exact hac
      · have hcb := (List.pairwise_cons.mp htail).1 b hb2
        exact ht a c b hac hcb

/-- C2 (amended): getTasks returns a permutation of the filtered tasks;
priority is the primary sort key in the pairwise sense (alta before media
before baixa, with unrecognized priorities ranked like baixa); and each
adjacent pair of the output with equal priority rank is ordered by due
date ascending when both tasks carry a due date, and by creation date
descending (most recently created first) otherwise — a task without a
due date is compared by creation date, not placed after tasks that have
one. -/
theorem getTasks_sort_order (now : Int) (f : Filters) (tasks : List Task) :
    (getTasks now f tasks).Perm (applyFilters now f tasks) ∧
    (getTasks now f tasks).Pairwise
      (fun a b => priorityOrder b.priority ≤ priorityOrder a.priority) ∧
    List.Chain'
      (fun a b =>
        priorityOrder b.priority ≤ priorityOrder a.priority ∧
        (priorityOrder a.priority = priorityOrder b.priority →
          (match a.dueDate, b.dueDate with
           | some da, some db => da ≤ db
           | _, _ => b.createdAt.getD 0 ≤ a.createdAt.getD 0)))
      (getTasks now f tasks) := by
  have hchain := sortTasks_chain (applyFilters now f tasks)
  refine ⟨sortTasks_perm _, ?_, ?_⟩
  · exact @chain_pairwise_of_trans Task
      (fun a b => priorityOrder b.priority ≤ priorityOrder a.priority)
      (fun a b c h1 h2 => le_trans h2 h1) _
      (hchain.imp (fun a b h => ((taskCompare_le_iff a b).mp h).1))
  · exact hchain.imp (fun a b h => (taskCompare_le_iff a b).mp h)

/-- C2 counterexample: with equal priorities, a task without a due date
but with a newer creation date is returned before a task that has a due
date, so due-date-less tasks do not sort after those with one. -/
theorem getTasks_dueDateless_counterexample :
    getTasks 0 {}
        [⟨"a", "A", "", "outros", "media", "pending", some 1000000, some 0, some 0, none⟩,
         ⟨"b", "B", "", "outros", "media", "pending", none, some 5000000, some 0, none⟩]
      = [⟨"b", "B", "", "outros", "media", "pending", none, some 5000000, some 0, none⟩,
         ⟨"a", "A", "", "outros", "media", "pending", some 1000000, some 0, some 0, none⟩] ∧
    Task.dueDate ⟨"b", "B", "", "outros", "media", "pending", none, some 5000000, some 0, none⟩
      = none ∧
    Task.dueDate ⟨"a", "A", "", "outros", "media", "pending", some 1000000, some 0, some 0, none⟩
      = some 1000000 := by
  refine ⟨by decide, rfl, rfl⟩

/-- C2 witness: sortedness of a concrete three-task query. -/
theorem getTasks_sort_order_witness :
    (getTasks 0 {}
        [⟨"p", "P", "", "outros", "baixa", "pending", none, some 1, some 0, none⟩,
         ⟨"q", "Q", "", "outros", "alta", "pending", none, some 2, some 0, none⟩,
         ⟨"r", "R", "", "outros", "media", "pending", none, some 3, some 0, none⟩]).Pairwise
      (fun a b => priorityOrder b.priority ≤ priorityOrder a.priority) :=
  (getTasks_sort_order 0 {}
    [⟨"p", "P", "", "outros", "baixa", "pending", none, some 1, some 0, none⟩,
     ⟨"q", "Q", "", "outros", "alta", "pending", none, some 2, some 0, none⟩,
     ⟨"r", "R", "", "outros", "media", "pending", none, some 3, some 0, none⟩]).2.1

theorem saveTaskPure_persisted (now : Int) (fid : String) (t : Task)
    (h : persistedInvariant t) : saveTaskPure now fid t = .ok (reSave now t) := by
  obtain ⟨hid, htitle, hpri, hstat, hcat, hcreated⟩ := h
  have hpri2 : coercePriority t.priority = t.priority := by
    unfold coercePriority
    rw [if_pos]
    rcases hpri with h | h | h <;> simp [h]
  have hstat2 : coerceStatus t.status = t.status := by
    unfold coerceStatus
    rw [if_pos]
    rcases hstat with h | h | h <;> simp [h]
  have hcat2 : coerceCategory t.category = t.category := by
    unfold coerceCategory
    rw [if_pos hcat]
  have hcre2 : some (t.createdAt.getD (angolaNow now)) = t.createdAt := by
    rcases hc : t.createdAt with _ | c
    · rw [hc] at hcreated; simp at hcreated
    · simp
  unfold saveTaskPure reSave
  rw [if_neg htitle]
  obtain ⟨tid, ttitle, tdesc, tcat, tpri, tstat, tdue, tcre, tupd, tcomp⟩ := t
  simp only at hid hpri2 hstat2 hcat2 hcre2
  simp [hid, hcat2, hpri2, hstat2, hcre2]

theorem saveTaskS_persisted (now : Int) (st : Store) (g : Nat) (t : Task)
    (h : persistedInvariant t) :
    saveTaskS now st g t = .ok
      ({ st with tasks := putTask st.tasks (reSave now t),
                 analytics := putEvent st.analytics
                   { id := generateId g, type := "task_saved",
                     data := .taskSaved t.id t.category t.priority,
                     date := angolaNow now, timestamp := now } }, g + 1, reSave now t) := by
  unfold saveTaskS
  rw [saveTaskPure_persisted now (generateId g) t h]
  simp only [if_neg h.1]
  rfl

theorem saveTaskS_ok_of_title (now : Int) (st : Store) (g : Nat) (t : Task)
    (h : jsTrim t.title ≠ "") : ∃ r, saveTaskS now st g t = .ok r := by
  unfold saveTaskS saveTaskPure
  rw [if_neg h]
  exact ⟨_, rfl⟩

theorem saveTaskS_err_of_title (now : Int) (st : Store) (g : Nat) (t : Task)
    (h : jsTrim t.title = "") :
    saveTaskS now st g t = .error "Task title is required" := by
  unfold saveTaskS saveTaskPure
  rw [if_pos h]

theorem saveTaskS_settings (now : Int) (st : Store) (g : Nat) (t : Task)
    (st' : Store) (g' : Nat) (t' : Task)
    (h : saveTaskS now st g t = .ok (st', g', t')) : st'.settings = st.settings := by
  unfold saveTaskS saveTaskPure at h
  by_cases hb : jsTrim t.title = ""
  · rw [if_pos hb] at h
    simp at h
  · rw [if_neg hb] at h
    simp only [Except.ok.injEq, Prod.mk.injEq] at h
    rw [← h.1]

theorem saveTaskS_analytics (now : Int) (st : Store) (g : Nat) (t : Task)
    (st' : Store) (g' : Nat) (t' : Task)
    (h : saveTaskS now st g t = .ok (st', g', t')) :
    ∀ e ∈ st'.analytics, e ∈ st.analytics ∨ e.type = "task_saved" := by
  unfold saveTaskS saveTaskPure at h
  by_cases hb : jsTrim t.title = ""
  · rw [if_pos hb] at h
    simp at h
  · rw [if_neg hb] at h
    simp only [Except.ok.injEq, Prod.mk.injEq] at h
    intro e he
    rw [← h.1] at he
    rcases mem_putBy AEvent.id st.analytics _ e he with h1 | h1
    · exact Or.inl h1
    · exact Or.inr (by rw [h1])

theorem importTasksRun_settings (now : Int) :
    ∀ (l : List Task) (st : Store) (g : Nat),
      (importTasksRun now st g l).1.1.settings = st.settings := by
  intro l
  induction l with
  | nil => intro st g; rfl
  | cons t ts ih =>
    intro st g
    unfold importTasksRun
    cases hs : saveTaskS now st g t with
    | error e => rfl
    | ok r =>
      obtain ⟨st1, g1, t1⟩ := r
      dsimp only
      rw [ih st1 g1]
      exact saveTaskS_settings now st g t st1 g1 t1 hs

theorem importTasksRun_analytics (now : Int) :
    ∀ (l : List Task) (st : Store) (g : Nat) (e : AEvent),
      e ∈ (importTasksRun now st g l).1.1.analytics →
      e ∈ st.analytics ∨ e.type = "task_saved" := by
  intro l
  induction l with
  | nil => intro st g e he; exact Or.inl he
  | cons t ts ih =>
    intro st g e he
    unfold importTasksRun at he
    cases hs : saveTaskS now st g t with
    | error er => rw [hs] at he; exact Or.inl he
    | ok r =>
      obtain ⟨st1, g1, t1⟩ := r
      rw [hs] at he
      dsimp only at he
      rcases ih st1 g1 e he with h1 | h1
      · exact saveTaskS_analytics now st g t st1 g1 t1 hs e h1
      · exact Or.inr h1

theorem importTasksRun_stops (now : Int) (bad : Task) (rest : List Task)
    (hbad : jsTrim bad.title = "") :
    ∀ (goods : List Task) (st : Store) (g : Nat),
      (∀ t ∈ goods, jsTrim t.title ≠ "") →
      importTasksRun now st g (goods ++ bad :: rest)
        = ((importTasksRun now st g goods).1, some "Task title is required") := by
  intro goods
  induction goods with
  | nil =>
    intro st g _
    rw [List.nil_append]
    unfold importTasksRun
    rw [saveTaskS_err_of_title now st g bad hbad]
  | cons t ts ih =>
    intro st g hall
    have ht := hall t (List.mem_cons_self t ts)
    obtain ⟨r, hr⟩ := saveTaskS_ok_of_title now st g t ht
    obtain ⟨st1, g1, t1⟩ := r
    rw [List.cons_append]
    unfold importTasksRun
    rw [hr]
    dsimp only
    exact ih st1 g1 (fun u hu => hall u (List.mem_cons_of_mem t hu))

theorem reSave_id (now : Int) (t : Task) : (reSave now t).id = t.id := rfl

theorem importRun_replace (now : Int) :
    ∀ (e : List Task) (st : Store) (g : Nat),
      (∀ t ∈ e, persistedInvariant t) →
      (∀ t ∈ e, t ∈ st.tasks) →
      (st.tasks.map Task.id).Nodup →
      (e.map Task.id).Nodup →
      (importTasksRun now st g e).2 = none ∧
      (importTasksRun now st g e).1.1.tasks
        = st.tasks.map (fun u => if e.any (fun v => v.id == u.id) then reSave now u else u) := by
  intro e
  induction e with
  | nil =>
    intro st g _ _ _ _
    refine ⟨rfl, ?_⟩
    simp [importTasksRun]
  | cons t ts ih =>
    intro st g hinv hmem hndl hnde
    have hinvT := hinv t (List.mem_cons_self t ts)
    have hmemT := hmem t (List.mem_cons_self t ts)
    have hsave := saveTaskS_persisted now st g t hinvT
    have hany : st.tasks.any (fun u => u.id == (reSave now t).id) = true := by
      rw [List.any_eq_true]
      exact ⟨t, hmemT, by simp [reSave]⟩
    have hput : putTask st.tasks (reSave now t)
        = st.tasks.map (fun u => if u.id == t.id then reSave now t else u) := by
      unfold putTask putBy
      rw [if_pos hany]
      simp only [reSave_id]
    have htid_notin : t.id ∉ ts.map Task.id := by
      have h2 := hnde
      rw [List.map_cons] at h2
      exact (List.nodup_cons.mp h2).1
    have hids : (putTask st.tasks (reSave now t)).map Task.id = st.tasks.map Task.id := by
      rw [hput, List.map_map]
      apply List.map_congr_left
      intro u hu
      simp only [Function.comp]
      by_cases hcase : (u.id == t.id) = true
      · rw [if_pos hcase]
        exact (beq_iff_eq.mp hcase).symm
      · rw [if_neg (by simp [hcase])]
    unfold importTasksRun
    rw [hsave]
    dsimp only
    have hmem2 : ∀ u ∈ ts, u ∈ (putTask st.tasks (reSave now t)) := by
      intro u hu
      have huSt := hmem u (List.mem_cons_of_mem t hu)
      have huid : u.id ≠ t.id := by
        intro hEq
        exact htid_notin (hEq ▸ List.mem_map_of_mem Task.id hu)
      rw [hput]
      refine List.mem_map.mpr ⟨u, huSt, ?_⟩
      rw [if_neg (by simp [huid])]
    have ihres := ih { st with tasks := putTask st.tasks (reSave now t),
                               analytics := putEvent st.analytics
                                 { id := generateId g, type := "task_saved",
                                   data := .taskSaved t.id t.category t.priority,
                                   date := angolaNow now, timestamp := now } } (g + 1)
      (fun u hu => hinv u (List.mem_cons_of_mem t hu))
      hmem2
      (hids.symm ▸ hndl)
      hnde.of_cons
    refine ⟨ihres.1, ?_⟩
    rw [ihres.2]
    show (putTask st.tasks (reSave now t)).map
        (fun u => if ts.any (fun v => v.id == u.id) then reSave now u else u)
      = st.tasks.map
          (fun u => if (t :: ts).any (fun v => v.id == u.id) then reSave now u else u)
    rw [hput, List.map_map]
    apply List.map_congr_left
    intro u hu
    simp only [Function.comp]
    by_cases hcase : (u.id == t.id) = true
    · have huT : u = t :=
        List.inj_on_of_nodup_map hndl hu hmemT (beq_iff_eq.mp hcase)
      have hts : ts.any (fun v => v.id == t.id) = false := by
        rw [Bool.eq_false_iff]
        intro hx
        rw [List.any_eq_true] at hx
        obtain ⟨v, hv, hvb⟩ := hx
        exact htid_notin ((beq_iff_eq.mp hvb) ▸ List.mem_map_of_mem Task.id hv)
      simp [huT, hts, reSave_id, List.any_cons]
    · have hc2 : (u.id == t.id) = false := Bool.eq_false_iff.mpr hcase
      have hf : (t.id == u.id) = false := by
        rw [beq_eq_false_iff_ne]
        intro hEq
        exact hcase (beq_iff_eq.mpr hEq.symm)
      simp [hc2, hf, List.any_cons]

theorem applyFilters_empty (now : Int) (l : List Task) : applyFilters now {} l = l := by
  unfold applyFilters
  simp

theorem foldl_setSetting_tasks (l : List (String × String)) :
    ∀ st : Store,
      (l.foldl (fun acc kv => setSettingS acc kv.1 kv.2) st).tasks = st.tasks := by
  induction l with
  | nil => intro st; rfl
  | cons kv kvs ih =>
    intro st
    rw [List.foldl_cons, ih]
    rfl

/-- C7 (amended; re-saving is not the identity): for every stored state
whose tasks satisfy the persisted invariant and carry pairwise-distinct
ids, importData applied to the output of exportData succeeds and yields
the same task ids in the same store order, with every field of every
task preserved except that updatedAt is refreshed to the import time and
title and description are HTML-sanitized again (escapable characters
already stored as entities are double-escaped). -/
theorem importData_exportData_roundtrip (now now2 : Int) (g : Nat) (st : Store)
    (hinv : ∀ t ∈ st.tasks, persistedInvariant t)
    (hnd : (st.tasks.map Task.id).Nodup) :
    (importData now2 st g (exportData now st)).2 = none ∧
    (importData now2 st g (exportData now st)).1.1.tasks
      = st.tasks.map (reSave now2) := by
  have hexp : (exportData now st).tasks = sortTasks st.tasks := by
    unfold exportData getTasks
    rw [applyFilters_empty]
  have hperm := sortTasks_perm st.tasks
  have hnde : ((sortTasks st.tasks).map Task.id).Nodup :=
    ((hperm.map Task.id).nodup_iff).mpr hnd
  have hrun := importRun_replace now2 (sortTasks st.tasks) st g
    (fun t ht => hinv t (hperm.mem_iff.mp ht))
    (fun t ht => hperm.mem_iff.mp ht) hnd hnde
  have htasks : (importTasksRun now2 st g (sortTasks st.tasks)).1.1.tasks
      = st.tasks.map (reSave now2) := by
    rw [hrun.2]
    apply List.map_congr_left
    intro u hu
    have hc : ((sortTasks st.tasks).any fun v => v.id == u.id) = true := by
      rw [List.any_eq_true]
      exact ⟨u, hperm.mem_iff.mpr hu, by simp⟩
    rw [if_pos hc]
  unfold importData
  rw [hexp]
  rcases hq : importTasksRun now2 st g (sortTasks st.tasks) with ⟨⟨st1, g1⟩, err⟩
  cases err with
  | some e =>
    rw [hq] at hrun
    simp at hrun
  | none =>
    dsimp only
    refine ⟨rfl, ?_⟩
    rw [foldl_setSetting_tasks]
    rw [hq] at htasks
    exact htasks

/-- C7 counterexample: a stored task whose title contains an ampersand
entity is re-sanitized on import, so the round trip changes the title
field (a&amp;b becomes a&amp;amp;b) and the collections differ. -/
theorem importExport_title_counterexample :
    ((importData 0
        ⟨[⟨"t1", "a&amp;b", "", "outros", "media", "pending", none, some 0, some 0, none⟩],
         [], []⟩ 0
        (exportData 0
          ⟨[⟨"t1", "a&amp;b", "", "outros", "media", "pending", none, some 0, some 0, none⟩],
           [], []⟩)).1.1.tasks.map Task.title) = ["a&amp;amp;b"] ∧
    (([⟨"t1", "a&amp;b", "", "outros", "media", "pending", none, some 0, some 0, none⟩]
        : List Task).map Task.title) = ["a&amp;b"] := by
  exact ⟨by decide, by decide⟩

/-- C7 witness: a store whose single task is a sanitization fixed point
round-trips to exactly the re-saved task list. -/
theorem importData_exportData_roundtrip_witness :
    (importData 5
        ⟨[⟨"t1", "Limpa", "", "outros", "media", "pending", none, some 0, some 0, none⟩],
         [], []⟩ 0
        (exportData 0
          ⟨[⟨"t1", "Limpa", "", "outros", "media", "pending", none, some 0, some 0, none⟩],
           [], []⟩)).2 = none ∧
    (importData 5
        ⟨[⟨"t1", "Limpa", "", "outros", "media", "pending", none, some 0, some 0, none⟩],
         [], []⟩ 0
        (exportData 0
          ⟨[⟨"t1", "Limpa", "", "outros", "media", "pending", none, some 0, some 0, none⟩],
           [], []⟩)).1.1.tasks
      = ([⟨"t1", "Limpa", "", "outros", "media", "pending", none, some 0, some 0, none⟩]
          : List Task).map (reSave 5) :=
  importData_exportData_roundtrip 0 5 0
    ⟨[⟨"t1", "Limpa", "", "outros", "media", "pending", none, some 0, some 0, none⟩], [], []⟩
    (by decide) (by decide)

theorem foldl_filter_events (l : List AEvent) :
    ∀ init : List AEvent,
      l.foldl (fun acc e => acc.filter (fun x => x.id != e.id)) init
        = init.filter (fun x => l.all (fun e => x.id != e.id)) := by
  induction l with
  | nil =>
    intro init
    simp
  | cons e es ih =>
    intro init
    rw [List.foldl_cons, ih, List.filter_filter]
    apply List.filter_congr
    intro x _
    simp [List.all_cons, Bool.and_comm]

/-- C8 (amended; the removal count is logged, not returned): given
pairwise-distinct event ids, cleanupOldData removes exactly the
analytics events dated at or before 30 days before the current time,
leaves the younger events and the task and settings collections
unchanged, and returns true, a bare success flag. -/
theorem cleanupOldData_spec (now : Int) (st : Store)
    (hnd : (st.analytics.map AEvent.id).Nodup) :
    (cleanupOldData now st).1.analytics
      = st.analytics.filter (fun e => decide (now - 30 * 86400000 < e.date)) ∧
    (cleanupOldData now st).1.tasks = st.tasks ∧
    (cleanupOldData now st).1.settings = st.settings ∧
    (cleanupOldData now st).2 = true := by
  refine ⟨?_, rfl, rfl, rfl⟩
  unfold cleanupOldData
  dsimp only
  have hold : getAnalyticsF st.analytics { endDate := some (now - 30 * 86400000) }
      = st.analytics.filter (fun e => decide (e.date ≤ now - 30 * 86400000)) := by
    unfold getAnalyticsF
    dsimp only
    rw [if_pos rfl]
  rw [hold, foldl_filter_events]
  apply List.filter_congr
  intro x hx
  by_cases hxd : x.date ≤ now - 30 * 86400000
  · have hxold : x ∈ st.analytics.filter (fun e => decide (e.date ≤ now - 30 * 86400000)) :=
      List.mem_filter.mpr ⟨hx, by simp only [decide_eq_true_eq]; omega⟩
    have hL : (st.analytics.filter (fun e => decide (e.date ≤ now - 30 * 86400000))).all
        (fun e => x.id != e.id) = false := by
      rw [List.all_eq_false]
      exact ⟨x, hxold, by simp⟩
    rw [hL]
    symm
    simp only [decide_eq_false_iff_not]
    omega
  · have hL : (st.analytics.filter (fun e => decide (e.date ≤ now - 30 * 86400000))).all
        (fun e => x.id != e.id) = true := by
      rw [List.all_eq_true]
      intro e he
      have heA := (List.mem_filter.mp he).1
      have heD : e.date ≤ now - 30 * 86400000 := by
        have h2 := (List.mem_filter.mp he).2
        simp only [decide_eq_true_eq] at h2
        exact h2
      rw [bne_iff_ne]
      intro hEq
      have hxe : x = e := List.inj_on_of_nodup_map hnd hx heA hEq
      rw [hxe] at hxd
      exact hxd heD
    rw [hL]
    symm
    simp only [decide_eq_true_eq]
    omega

/-- C8 counterexample: the return value of cleanupOldData is the constant
true whether two events are removed or zero, so it is not the count of
events removed. -/
theorem cleanupOldData_returns_counterexample :
    (cleanupOldData 2592000100
        ⟨[], [], [⟨"e1", "x", EventData.taskDeleted "a", 0, 0⟩,
                  ⟨"e2", "x", EventData.taskDeleted "b", 50, 0⟩]⟩).2 = true ∧
    (cleanupOldData 2592000100
        ⟨[], [], [⟨"e1", "x", EventData.taskDeleted "a", 0, 0⟩,
                  ⟨"e2", "x", EventData.taskDeleted "b", 50, 0⟩]⟩).1.analytics = [] ∧
    (cleanupOldData 2592000100 ⟨[], [], []⟩).2 = true ∧
    (cleanupOldData 2592000100 ⟨[], [], []⟩).1.analytics = [] := by
  exact ⟨rfl, by decide, rfl, by decide⟩

/-- C8 witness: a concrete cleanup keeps exactly the young event. -/
theorem cleanupOldData_spec_witness :
    (cleanupOldData 2592000100
        ⟨[], [], [⟨"e1", "x", EventData.taskDeleted "a", 0, 0⟩,
                  ⟨"young", "x", EventData.taskDeleted "b", 2592000050, 0⟩]⟩).1.analytics
      = List.filter (fun e => decide (2592000100 - 30 * 86400000 < e.date))
          [⟨"e1", "x", EventData.taskDeleted "a", 0, 0⟩,
           ⟨"young", "x", EventData.taskDeleted "b", 2592000050, 0⟩] :=
  (cleanupOldData_spec 2592000100
    ⟨[], [], [⟨"e1", "x", EventData.taskDeleted "a", 0, 0⟩,
              ⟨"young", "x", EventData.taskDeleted "b", 2592000050, 0⟩]⟩ (by decide)).1

/-- C9: importData is not atomic: when a task in the middle of the array
fails saveTask validation, the import stops there with the validation
error propagated, the earlier tasks remain persisted (the state equals
the state after importing exactly the prefix), no settings are imported,
and no data_imported event is recorded (every new analytics event is a
task_saved event of a prefix task). -/
theorem importData_partial_on_failure (now : Int) (st : Store) (g : Nat)
    (goods : List Task) (bad : Task) (rest : List Task)
    (sett : List (String × String)) (ana : List AEvent) (ed : Int) (v : Nat)
    (hgoods : ∀ t ∈ goods, jsTrim t.title ≠ "")
    (hbad : jsTrim bad.title = "") :
    importData now st g ⟨goods ++ bad :: rest, sett, ana, ed, v⟩
      = ((importTasksRun now st g goods).1, some "Task title is required") ∧
    (importData now st g ⟨goods ++ bad :: rest, sett, ana, ed, v⟩).1.1.settings
      = st.settings ∧
    (∀ e ∈ (importData now st g ⟨goods ++ bad :: rest, sett, ana, ed, v⟩).1.1.analytics,
      e ∈ st.analytics ∨ e.type = "task_saved") := by
  have hstop := importTasksRun_stops now bad rest hbad goods st g hgoods
  have himp : importData now st g ⟨goods ++ bad :: rest, sett, ana, ed, v⟩
      = ((importTasksRun now st g goods).1, some "Task title is required") := by
    unfold importData
    dsimp only
    rw [hstop]
  refine ⟨himp, ?_, ?_⟩
  · rw [himp]
    exact importTasksRun_settings now goods st g
  · rw [himp]
    intro e he
    exact importTasksRun_analytics now goods st g e he

/-- C9 witness: one valid task followed by an empty-titled task leaves
the settings untouched after the failed import. -/
theorem importData_partial_on_failure_witness :
    (importData 0 ⟨[], [], []⟩ 0
        ⟨[⟨"g1", "Boa", "", "outros", "media", "pending", none, some 0, none, none⟩,
          ⟨"", "", "", "outros", "media", "pending", none, none, none, none⟩],
         [], [], 0, 1⟩).1.1.settings = [] :=
  (importData_partial_on_failure 0 ⟨[], [], []⟩ 0
    [⟨"g1", "Boa", "", "outros", "media", "pending", none, some 0, none, none⟩]
    ⟨"", "", "", "outros", "media", "pending", none, none, none, none⟩
    [] [] [] 0 1 (by decide) (by decide)).2.1

/-- C10: a successful completeTask records a task_completed event whose
daysToComplete is the ceiling of completedAt minus createdAt in whole
days when the task has a due date (elapsed time is measured from the
creation time, not relative to the due date), and null when it has no
due date; completedAt is the completion-time clock reading. -/
theorem completeTask_daysToComplete (now : Int) (st : Store) (g : Nat) (id : String)
    (task : Task) (c : Int)
    (hfind : getTask st id = some task)
    (htitle : jsTrim task.title ≠ "")
    (hc : task.createdAt = some c) :
    (completeTask now st g id).2.2 = true ∧
    (∃ ev ∈ (completeTask now st g id).1.analytics,
      ev.type = "task_completed" ∧
      ev.data = EventData.taskCompleted id (coerceCategory task.category)
        (coercePriority task.priority)
        (if task.dueDate.isSome then
          some (jsCeilDiv (angolaNow now - c) 86400000)
        else none)) := by
  unfold completeTask
  rw [hfind]
  dsimp only
  unfold saveTaskS saveTaskPure
  rw [if_neg htitle]
  dsimp only
  constructor
  · rfl
  · refine ⟨_, self_mem_putBy AEvent.id _ _, rfl, ?_⟩
    rcases hdu : task.dueDate with _ | d
    · simp [hdu, hc]
    · simp [hdu, hc]

/-- C10 witness: completing a concrete task with a due date records
daysToComplete computed from creation to completion. -/
theorem completeTask_daysToComplete_witness :
    (completeTask 0
        ⟨[⟨"t1", "T", "", "outros", "media", "pending", some 5, some 100, some 0, none⟩],
         [], []⟩ 0 "t1").2.2 = true ∧
    (∃ ev ∈ (completeTask 0
        ⟨[⟨"t1", "T", "", "outros", "media", "pending", some 5, some 100, some 0, none⟩],
         [], []⟩ 0 "t1").1.analytics,
      ev.type = "task_completed" ∧
      ev.data = EventData.taskCompleted "t1" (coerceCategory "outros")
        (coercePriority "media")
        (if (some (5 : Int)).isSome then
          some (jsCeilDiv (angolaNow 0 - 100) 86400000)
        else none)) :=
  completeTask_daysToComplete 0
    ⟨[⟨"t1", "T", "", "outros", "media", "pending", some 5, some 100, some 0, none⟩],
     [], []⟩ 0 "t1"
    ⟨"t1", "T", "", "outros", "media", "pending", some 5, some 100, some 0, none⟩ 100
    (by decide) (by decide) rfl

/-- C6 witness: a concrete item failing the first drain and succeeding
the second is present after one drain and absent after two. -/
theorem processSyncQueue_spec_witness :
    (⟨"op1", 0⟩ : SyncItem) ∈ (processSyncQueueS (fun _ => false)
        ⟨true, [⟨"op1", 0⟩], []⟩).queue ∧
    (⟨"op1", 0⟩ : SyncItem) ∉ (processSyncQueueS (fun _ => true)
        (processSyncQueueS (fun _ => false) ⟨true, [⟨"op1", 0⟩], []⟩)).queue :=
  processSyncQueue_spec.2.2.2 (fun _ => false) (fun _ => true)
    ⟨true, [⟨"op1", 0⟩], []⟩ ⟨"op1", 0⟩ rfl (by simp) rfl rfl

end ListKamba
